import Mathlib

/-!
Verification of the execution pipeline of the git-stunts/plumbing library:
argument sanitization, environment filtering, runtime adapters' stdin
handling, the output-stream wrapper, failure classification and the
retry/timeout orchestrator.  Each definition is a shallow embedding of the
corresponding JavaScript source; machine integers are modelled as Nat
(all the quantities involved are non-negative counters, sizes and
millisecond durations) and thrown exceptions as explicit error values.
-/

namespace Plumbing

/-! ### String primitives

Kernel-reducible counterparts of the JavaScript string operations used by
the sources (the standard library versions are iterator-based and do not
reduce inside decide). -/

/-- JavaScript toLowerCase, character-wise. -/
def strLower (s : String) : String := ⟨s.data.map Char.toLower⟩

/-- Whether the first list is an initial segment of the second. -/
def listLeads : List Char → List Char → Bool
  | [], _ => true
  | _ :: _, [] => false
  | p :: ps, c :: cs => p == c && listLeads ps cs

/-- JavaScript String.prototype.startsWith. -/
def strLeads (s pre : String) : Bool := listLeads pre.data s.data

/-- The part of a string before the first character failing the
predicate. -/
def strTakeWhile (p : Char → Bool) (s : String) : String := ⟨s.data.takeWhile p⟩

/-- Whether the second list occurs as a contiguous run inside the
first. -/
def listHasRun : List Char → List Char → Bool
  | hay, needle =>
    match hay with
    | [] => listLeads needle []
    | _ :: rest => listLeads needle hay || listHasRun rest needle

/-- JavaScript String.prototype.includes. -/
def strIncl (hay needle : String) : Bool := listHasRun hay.data needle.data

/-- JavaScript String.prototype.trim (whitespace stripped from both
ends). -/
def strTrim (s : String) : String :=
  ⟨((s.data.dropWhile Char.isWhitespace).reverse.dropWhile
      Char.isWhitespace).reverse⟩

/-! ### CommandSanitizer (src/unnamed/part_014)

The sanitizer is an instance with a bounded validation cache.  Arguments
are modelled as lists of strings (the claims under study only concern
string tokens; the dynamic type check of the source never fires on them).
-/

/-- Maximum number of arguments accepted by the sanitizer. -/
def MAX_ARGS : Nat := 1000

/-- Maximum length of a single argument. -/
def MAX_ARG_LENGTH : Nat := 8192

/-- Maximum aggregate length of all arguments. -/
def MAX_TOTAL_LENGTH : Nat := 65536

/-- The ALLOWED_COMMANDS whitelist of the cached sanitizer. -/
def defaultAllowedCommands : List String :=
  ["rev-parse", "update-ref", "cat-file", "hash-object", "ls-tree",
   "commit-tree", "write-tree", "read-tree", "rev-list", "mktree",
   "unpack-objects", "symbolic-ref", "for-each-ref", "show-ref",
   "diff-tree", "diff-index", "diff-files", "merge-base", "ls-files",
   "check-ignore", "check-attr", "init", "config", "log", "show"]

/-- Global git flags that are strictly prohibited. -/
def PROHIBITED_GLOBAL_FLAGS : List String :=
  ["--exec-path", "--html-path", "--man-path", "--info-path",
   "--work-tree", "--git-dir", "--namespace", "--template", "-c",
   "--config", "-C"]

/-- Command-specific flags that are prohibited. -/
def PROHIBITED_COMMAND_FLAGS : List String :=
  ["--upload-pack", "--receive-pack", "--ext-cmd"]

/-- Per-command flag allowlist for the show command. -/
def showFlagAllowlist : List String :=
  ["--format", "--pretty", "-s", "--no-patch", "--quiet", "-q",
   "--name-only", "--name-status", "--stat", "--numstat", "--shortstat",
   "--oneline", "--abbrev-commit", "--no-abbrev-commit", "--date",
   "--no-notes"]

/-- Per-command flag allowlist for the log command. -/
def logFlagAllowlist : List String :=
  ["--format", "--pretty", "-z", "--oneline",
   "-n", "--max-count", "-1", "-2", "-3", "-4", "-5", "-10", "-20",
   "-50", "-100", "--skip", "--since", "--until", "--after", "--before",
   "--author", "--committer", "--grep", "--all-match", "--invert-grep",
   "--regexp-ignore-case", "-i", "-E", "-F", "-P",
   "--ancestry-path", "--first-parent", "--no-merges", "--merges",
   "--reverse", "--date-order", "--author-date-order", "--topo-order",
   "--abbrev-commit", "--no-abbrev-commit", "--abbrev", "--date",
   "--relative-date", "--parents", "--children", "--left-right",
   "--graph", "--decorate", "--no-decorate", "--source",
   "--no-walk", "--stdin", "--cherry", "--cherry-pick", "--cherry-mark",
   "--boundary", "--simplify-by-decoration"]

/-- The COMMAND_FLAG_ALLOWLISTS map: only show and log are restricted. -/
def commandFlagAllowlist (command : String) : Option (List String) :=
  if command = "show" then some showFlagAllowlist
  else if command = "log" then some logFlagAllowlist
  else none

/-- One prohibited-flag comparison of the source: the lowercased argument
either equals the flag or begins with the flag followed by an equals
sign. -/
def matchesFlagList (flags : List String) (arg : String) : Bool :=
  let lower := strLower arg
  flags.any (fun f => lower == f || strLeads lower (f ++ "="))

/-- The structural cache fingerprint of the source: first argument, count,
length of the last argument and total joined length, colon-separated. -/
def cacheKey (args : List String) : String :=
  (args.headD "") ++ ":" ++ toString args.length ++ ":" ++
  toString ((args.getLast?.map String.length).getD 0) ++ ":" ++
  toString ((args.map String.length).sum)

/-- Failure kinds raised by sanitize: ValidationError or
ProhibitedFlagError (both extend GitPlumbingError in the source). -/
inductive SanErr
  | invalid (msg : String)
  | prohibitedFlag (arg : String)
deriving DecidableEq

/-- Result of one sanitize call: success returns the argument list
unchanged, so success carries no data here. -/
inductive SanResult
  | ok
  | err (e : SanErr)
deriving DecidableEq

/-- True exactly when sanitize raised a ProhibitedFlagError. -/
def isProhibitedFlagRes : SanResult → Bool
  | .err (.prohibitedFlag _) => true
  | _ => false

/-- The validateCommandFlags scan: stop at the end-of-options marker,
skip positional tokens, and reject any flag whose part before the first
equals sign is outside the per-command allowlist. -/
def checkPerCommandFlags (allow : List String) : List String → SanResult
  | [] => .ok
  | a :: rest =>
    if a = "--" then .ok
    else if !(strLeads a "-") then checkPerCommandFlags allow rest
    else
      let flagPart := strTakeWhile (fun c => c != '=') a
      if flagPart ∈ allow then checkPerCommandFlags allow rest
      else .err (.prohibitedFlag a)

/-- The stateless part of sanitize after the cache and count checks:
the prohibited-flag scan over every position, the subcommand whitelist
check, the per-command flag allowlist and the length limits, in source
order. -/
def validateArgs (allowed : List String) (args : List String) : SanResult :=
  match args.find? (fun a =>
      matchesFlagList PROHIBITED_GLOBAL_FLAGS a ||
      matchesFlagList PROHIBITED_COMMAND_FLAGS a) with
  | some a => .err (.prohibitedFlag a)
  | none =>
    let subIdx := args.findIdx? (fun a => !(strLeads a "-"))
    let commandArg := match subIdx with
      | some i => args.getD i ""
      | none => args.headD ""
    let command := strLower commandArg
    if command ∈ allowed then
      let start := subIdx.getD 0
      let perCmd := match commandFlagAllowlist command with
        | some allow => checkPerCommandFlags allow (args.drop (start + 1))
        | none => .ok
      match perCmd with
      | .err e => .err e
      | .ok =>
        if args.any (fun a => a.length > MAX_ARG_LENGTH) then
          .err (.invalid "Argument too long")
        else if ((args.map String.length).sum > MAX_TOTAL_LENGTH) then
          .err (.invalid "Total arguments length too long")
        else .ok
    else .err (.invalid "Prohibited git command detected")

/-- Mutable state of one CommandSanitizer instance: the insertion-ordered
cache of validated fingerprints and its capacity. -/
structure SanitizerState where
  cache : List String
  maxCacheSize : Nat
deriving DecidableEq

/-- Cache insertion with oldest-first eviction when at capacity. -/
def insertCacheKey (st : SanitizerState) (key : String) : SanitizerState :=
  let base := if st.maxCacheSize ≤ st.cache.length then st.cache.drop 1 else st.cache
  ⟨base ++ [key], st.maxCacheSize⟩

/-- CommandSanitizer.sanitize of src/unnamed/part_014, in source order:
empty check, cache lookup, argument-count limit, the --version special
case, then full validation followed by caching of the fingerprint.
The command whitelist is a parameter because the source keeps it in
static mutable state. -/
def sanitize (allowed : List String) (st : SanitizerState) (args : List String) :
    SanResult × SanitizerState :=
  if args = [] then (.err (.invalid "Arguments array cannot be empty"), st)
  else if cacheKey args ∈ st.cache then (.ok, st)
  else if args.length > MAX_ARGS then (.err (.invalid "Too many arguments"), st)
  else if args = ["--version"] then (.ok, st)
  else
    match validateArgs allowed args with
    | .ok => (.ok, insertCacheKey st (cacheKey args))
    | .err e => (.err e, st)

/-- Whether some token of the sequence matches a prohibited global flag,
case-insensitively, in bare or flag=value form. -/
def hasProhibitedGlobalFlag (args : List String) : Bool :=
  args.any (matchesFlagList PROHIBITED_GLOBAL_FLAGS)

/-! ### Sanitizer lemmas and the claims about it -/

theorem exists_find?_of_any {α} (q : α → Bool) :
    ∀ (l : List α), l.any q = true → ∃ a, l.find? q = some a
  | [], h => by simp at h
  | x :: xs, h => by
    by_cases hx : q x = true
    · exact ⟨x, by simp [List.find?_cons, hx]⟩
    · have hx' : q x = false := by simpa using hx
      have h' : xs.any q = true := by simpa [List.any_cons, hx'] using h
      obtain ⟨a, ha⟩ := exists_find?_of_any q xs h'
      exact ⟨a, by simp [List.find?_cons, hx', ha]⟩

theorem any_or_left {α} (p r : α → Bool) (l : List α) (h : l.any p = true) :
    l.any (fun a => p a || r a) = true := by
  rcases List.any_eq_true.mp h with ⟨a, ha, hpa⟩
  exact List.any_eq_true.mpr ⟨a, ha, by simp [hpa]⟩

/-- Claim C1 (counterexample): the validation cache is consulted before the
prohibited-flag scan and its structural fingerprint can collide, so after
an earlier sanitize call on a valid sequence with the same fingerprint, a
sequence carrying the prohibited global flag --git-dir is accepted instead
of raising ProhibitedFlagError. -/
theorem sanitize_cache_collision_masks_prohibited_flag :
    (sanitize defaultAllowedCommands ⟨[], 100⟩ ["rev-parse", "abcdefghi"]).fst = .ok
    ∧ hasProhibitedGlobalFlag ["rev-parse", "--git-dir"] = true
    ∧ (sanitize defaultAllowedCommands
        (sanitize defaultAllowedCommands ⟨[], 100⟩ ["rev-parse", "abcdefghi"]).snd
        ["rev-parse", "--git-dir"]).fst = .ok := by
  refine ⟨by decide, by decide, by decide⟩

/-- Claim C1 (amended): on an argument sequence containing a prohibited
global flag at any position, sanitize raises ProhibitedFlagError provided
the argument count is within the limit and the sequence's structural
fingerprint is not already in the instance's validation cache. -/
theorem sanitize_throws_on_prohibited_global_flag
    (allowed : List String) (st : SanitizerState) (args : List String)
    (hflag : hasProhibitedGlobalFlag args = true)
    (hcount : args.length ≤ MAX_ARGS)
    (hmiss : cacheKey args ∉ st.cache) :
    isProhibitedFlagRes (sanitize allowed st args).fst = true := by
  have hne : args ≠ [] := by
    rintro rfl
    simp [hasProhibitedGlobalFlag] at hflag
  have hnv : args ≠ ["--version"] := by
    rintro rfl
    revert hflag
    decide
  have hlen : ¬ (args.length > MAX_ARGS) := not_lt.mpr hcount
  obtain ⟨a, hfind⟩ := exists_find?_of_any _ args
    (any_or_left _ (matchesFlagList PROHIBITED_COMMAND_FLAGS) args hflag)
  have hva : validateArgs allowed args = .err (.prohibitedFlag a) := by
    unfold validateArgs
    rw [hfind]
  unfold sanitize
  rw [if_neg hne, if_neg hmiss, if_neg hlen, if_neg hnv, hva]
  rfl

/-- Witness for the amended claim C1 at a concrete input. -/
theorem sanitize_throws_on_prohibited_global_flag_witness :
    hasProhibitedGlobalFlag ["rev-parse", "--git-dir"] = true
    ∧ (["rev-parse", "--git-dir"] : List String).length ≤ MAX_ARGS
    ∧ cacheKey ["rev-parse", "--git-dir"] ∉ (SanitizerState.mk [] 100).cache
    ∧ isProhibitedFlagRes
        (sanitize defaultAllowedCommands ⟨[], 100⟩ ["rev-parse", "--git-dir"]).fst = true :=
  ⟨by decide, by decide, by decide,
    sanitize_throws_on_prohibited_global_flag defaultAllowedCommands ⟨[], 100⟩
      ["rev-parse", "--git-dir"] (by decide) (by decide) (by decide)⟩

/-- Claim C9: when sanitize succeeds on a sequence, a second sanitize call
on the identical sequence against the same instance succeeds as well, for
any (possibly corrupted or emptied) command allow-list in force at the
second call, because the fingerprint is served from the validation cache
(or the sequence is the --version special case, which never consults the
allow-list). -/
theorem sanitize_second_call_succeeds
    (allowed allowed2 : List String) (st : SanitizerState) (args : List String)
    (h : (sanitize allowed st args).fst = .ok) :
    (sanitize allowed2 (sanitize allowed st args).snd args).fst = .ok := by
  by_cases hne : args = []
  · subst hne
    simp [sanitize] at h
  · by_cases hc : cacheKey args ∈ st.cache
    · have hsnd : (sanitize allowed st args).snd = st := by
        simp [sanitize, hne, hc]
      rw [hsnd]
      simp [sanitize, hne, hc]
    · by_cases hm : args.length > MAX_ARGS
      · simp [sanitize, hne, hc, hm] at h
      · by_cases hv : args = ["--version"]
        · subst hv
          have h1 : (["--version"] : List String) ≠ [] := by decide
          have h2 : ¬ ((["--version"] : List String).length > MAX_ARGS) := by decide
          have hsnd : (sanitize allowed st ["--version"]).snd = st := by
            unfold sanitize
            rw [if_neg h1, if_neg hc, if_neg h2, if_pos rfl]
          rw [hsnd]
          by_cases hc2 : cacheKey ["--version"] ∈ st.cache
          · unfold sanitize
            rw [if_neg h1, if_pos hc2]
          · unfold sanitize
            rw [if_neg h1, if_neg hc2, if_neg h2, if_pos rfl]
        · cases hval : validateArgs allowed args with
          | err e => simp [sanitize, hne, hc, hm, hv, hval] at h
          | ok =>
            have hsnd : (sanitize allowed st args).snd
                = insertCacheKey st (cacheKey args) := by
              simp [sanitize, hne, hc, hm, hv, hval]
            have hmem : cacheKey args ∈ (insertCacheKey st (cacheKey args)).cache := by
              simp [insertCacheKey]
            rw [hsnd]
            simp [sanitize, hne, hmem]

/-- Witness for claim C9 at a concrete input: a successful call, then a
second call after the allow-list has been emptied. -/
theorem sanitize_second_call_succeeds_witness :
    (sanitize defaultAllowedCommands ⟨[], 100⟩ ["rev-parse", "HEAD"]).fst = .ok
    ∧ (sanitize []
        (sanitize defaultAllowedCommands ⟨[], 100⟩ ["rev-parse", "HEAD"]).snd
        ["rev-parse", "HEAD"]).fst = .ok :=
  ⟨by decide,
    sanitize_second_call_succeeds defaultAllowedCommands [] ⟨[], 100⟩
      ["rev-parse", "HEAD"] (by decide)⟩

/-! ### EnvironmentPolicy (src/unnamed/part_013, hardened revision)

The current EnvironmentPolicy, matching SECURITY.md and the changelog
entry on EnvironmentPolicy hardening: an allow-list walk that skips any
key on the blocked list.  Environments are association lists keyed by
variable name. -/

/-- The ALLOWED_KEYS whitelist of the hardened EnvironmentPolicy. -/
def ENV_ALLOWED_KEYS : List String :=
  ["PATH", "GIT_EXEC_PATH", "GIT_TEMPLATE_DIR", "GIT_CONFIG_NOSYSTEM",
   "GIT_ATTR_NOSYSTEM",
   "GIT_AUTHOR_NAME", "GIT_AUTHOR_EMAIL", "GIT_AUTHOR_DATE",
   "GIT_AUTHOR_TZ", "GIT_COMMITTER_NAME", "GIT_COMMITTER_EMAIL",
   "GIT_COMMITTER_DATE", "GIT_COMMITTER_TZ",
   "LANG", "LC_ALL", "LC_CTYPE", "LC_MESSAGES"]

/-- The BLOCKED_KEYS blacklist of the hardened EnvironmentPolicy. -/
def ENV_BLOCKED_KEYS : List String := ["GIT_CONFIG_PARAMETERS"]

/-- Property access on the raw environment object. -/
def envLookup (env : List (String × String)) (k : String) : Option String :=
  (env.find? (fun kv => kv.fst == k)).map Prod.snd

/-- EnvironmentPolicy.filter: walk the allow-list in order, skip blocked
keys, and copy each defined variable unchanged. -/
def envFilter (env : List (String × String)) : List (String × String) :=
  (ENV_ALLOWED_KEYS.filter (fun k => !(ENV_BLOCKED_KEYS.contains k))).filterMap
    (fun k => (envLookup env k).map (fun v => (k, v)))

/-- One entry of the filtered environment is sound: its key is on the
allow-list, its value is the raw environment's value unchanged, and it is
not the configuration-injection variable. -/
def envEntrySound (env : List (String × String)) (kv : String × String) : Bool :=
  ENV_ALLOWED_KEYS.contains kv.fst
    && (envLookup env kv.fst == some kv.snd)
    && !(kv.fst == "GIT_CONFIG_PARAMETERS")

/-- Claim C4: for every raw environment, every entry of the filtered
environment has an allow-listed key, a value copied unchanged from the
input, and is never GIT_CONFIG_PARAMETERS. -/
theorem envFilter_sound (env : List (String × String)) :
    (envFilter env).all (envEntrySound env) = true := by
  rw [List.all_eq_true]
  intro kv hkv
  obtain ⟨k, hk, hmap⟩ := List.mem_filterMap.mp hkv
  obtain ⟨hallow, hblock⟩ := List.mem_filter.mp hk
  obtain ⟨v, hv, hkv'⟩ := Option.map_eq_some'.mp hmap
  subst hkv'
  have hnb : k ≠ "GIT_CONFIG_PARAMETERS" := by
    intro hkeq
    subst hkeq
    simp [ENV_BLOCKED_KEYS] at hblock
  simp [envEntrySound, hv, hnb, List.contains, List.elem_eq_mem, hallow]

/-! ### GitErrorClassifier (src/src/domain/services/GitErrorClassifier.js) -/

/-- JavaScript word character, as in the character class of the lock
regex. -/
def isWordCharJS (c : Char) : Bool := c.isAlpha || c.isDigit || c == '_'

/-- The test of the lock regex: some word character immediately followed
by the characters dot l o c k anywhere in the string (the one-or-more
repetition of word characters matches exactly when a single word
character directly precedes the suffix). -/
def hasWordDotLock : List Char → Bool
  | [] => false
  | c :: rest =>
    (isWordCharJS c && listLeads ".lock".data rest) || hasWordDotLock rest

/-- The lock-marker condition of classify: the lock regex matches the
diagnostic text, or the text contains the substring lock. -/
def lockMarker (stderr : String) : Bool :=
  hasWordDotLock stderr.data || strIncl stderr "lock"

/-- The context object handed to classify. -/
structure FailureInfo where
  args : List String
  stderr : String
  stdoutTxt : String
  code : Nat
  traceId : String
  latency : Nat
deriving DecidableEq

/-- The classified failure: GitRepositoryLockedError or the generic
GitPlumbingError, carrying the invocation context. -/
inductive ClassifiedFailure
  | locked (info : FailureInfo)
  | generic (info : FailureInfo)
deriving DecidableEq

/-- A caller-supplied custom classification rule: predicate plus
constructor. -/
structure CustomRule where
  test : Nat → String → Bool
  create : FailureInfo → ClassifiedFailure

/-- GitErrorClassifier.classify: custom rules first in order, then the
default lock-contention rule on exit code 128, else generic. -/
def classify (rules : List CustomRule) (info : FailureInfo) : ClassifiedFailure :=
  match rules.find? (fun r => r.test info.code info.stderr) with
  | some r => r.create info
  | none =>
    if info.code == 128 && lockMarker info.stderr then .locked info
    else .generic info

/-- The JavaScript error classes of the domain error hierarchy. -/
inductive JsErrClass
  | validationError
  | prohibitedFlagError
  | invalidGitObjectTypeError
  | gitRepositoryLockedError
  | gitPlumbingError
deriving DecidableEq

/-- Every class of the hierarchy extends GitPlumbingError. -/
def jsExtendsGitPlumbingError : JsErrClass → Bool := fun _ => true

/-- The instanceof GitRepositoryLockedError test. -/
def instanceOfRepositoryLocked : JsErrClass → Bool
  | .gitRepositoryLockedError => true
  | _ => false

/-- The runtime class of a classified failure. -/
def failureClass : ClassifiedFailure → JsErrClass
  | .locked _ => .gitRepositoryLockedError
  | .generic _ => .gitPlumbingError

/-- GitErrorClassifier.isRetryable: an instanceof check against
GitRepositoryLockedError. -/
def isRetryable (e : ClassifiedFailure) : Bool :=
  instanceOfRepositoryLocked (failureClass e)

/-- Discriminator for the ResourceLocked variant. -/
def isLockedFailure : ClassifiedFailure → Bool
  | .locked _ => true
  | .generic _ => false

/-- Claim C8: with no custom rules, classify yields the retryable
ResourceLocked failure exactly when the exit code is 128 and the
diagnostic text matches the lock-marker pattern, and the terminal Generic
failure otherwise; isRetryable holds exactly on ResourceLocked failures. -/
theorem classify_default_rule (info : FailureInfo) (f : ClassifiedFailure) :
    classify [] info
      = (if info.code == 128 && lockMarker info.stderr then .locked info
         else .generic info)
    ∧ isRetryable f = isLockedFailure f := by
  constructor
  · rfl
  · cases f <;> rfl

/-! ### GitStream (src/src/infrastructure/GitStream.js)

The wrapper's observable state: the chunks the underlying native stream
will still deliver (byte lists), an optional error the underlying stream
raises after delivering them, the consumed guard flag, and whether the
native resource has been destroyed.  Consuming entry points are modelled
as functions from stream state to a result and a successor state; the
lazy chunk-by-chunk pull is collapsed into one step, which preserves the
delivered chunks, the raised error and the final flags. -/

/-- Errors raised by GitStream consumption. -/
inductive StreamErr
  | alreadyConsumed
  | limitHit (maxBytes : Nat)
  | underlying (msg : String)
deriving DecidableEq

/-- Observable state of a GitStream. -/
structure GitStreamSt where
  chunks : List (List Nat)
  failAfter : Option String
  consumed : Bool
  destroyed : Bool
deriving DecidableEq

/-- GitStream.destroy: tears down the underlying native resource. -/
def destroyStream (s : GitStreamSt) : GitStreamSt :=
  ⟨s.chunks, s.failAfter, s.consumed, true⟩

/-- Draining the stream through the async-iterator entry point: the guard
raises if the stream was already consumed (before the try block, so
without destroying); otherwise the iteration delivers every chunk, the
generator's cleanup destroys the resource, and an underlying failure is
re-raised after the delivered prefix. -/
def iterateAll (s : GitStreamSt) : Except StreamErr (List (List Nat)) × GitStreamSt :=
  if s.consumed then (.error .alreadyConsumed, s)
  else
    match s.failAfter with
    | some e => (.error (.underlying e), ⟨[], none, true, true⟩)
    | none => (.ok s.chunks, ⟨[], none, true, true⟩)

/-- Draining the stream through the getReader entry point: the source has
no consumed guard there, the native reader pulls directly from the
underlying stream (premature-close errors are mapped to end-of-stream),
and nothing is destroyed. -/
def readerDrain (s : GitStreamSt) : Except StreamErr (List (List Nat)) × GitStreamSt :=
  match s.failAfter with
  | some e => (.error (.underlying e), ⟨[], none, s.consumed, s.destroyed⟩)
  | none => (.ok s.chunks, ⟨[], none, s.consumed, s.destroyed⟩)

/-- The accumulation loop of collect: before adding each chunk, raise a
limit error when the running total plus the chunk size would exceed the
ceiling; on success return the concatenated bytes. -/
def accumulateChunks (maxBytes : Nat) : List (List Nat) → Nat → Except StreamErr (List Nat)
  | [], _ => .ok []
  | c :: rest, total =>
    if total + c.length > maxBytes then .error (.limitHit maxBytes)
    else
      match accumulateChunks maxBytes rest (total + c.length) with
      | .ok bs => .ok (c ++ bs)
      | .error e => .error e

/-- GitStream.collect: iterate through the async iterator accumulating
chunks under the byte ceiling; on every outcome, including the
already-consumed guard error, the final cleanup destroys the stream. -/
def collect (s : GitStreamSt) (maxBytes : Nat) : Except StreamErr (List Nat) × GitStreamSt :=
  if s.consumed then (.error .alreadyConsumed, destroyStream s)
  else
    match accumulateChunks maxBytes s.chunks 0 with
    | .error e => (.error e, ⟨[], none, true, true⟩)
    | .ok bs =>
      match s.failAfter with
      | some e => (.error (.underlying e), ⟨[], none, true, true⟩)
      | none => (.ok bs, ⟨[], none, true, true⟩)

/-- Total output size of the stream in bytes. -/
def totalOutputBytes (s : GitStreamSt) : Nat := (s.chunks.map List.length).sum

/-- Whether a consumption result is an error. -/
def isConsumptionErr {α} : Except StreamErr α → Bool
  | .error _ => true
  | .ok _ => false

/-- Claim C6 (counterexample): after a full first consumption through the
async iterator, a second drain through the getReader entry point does not
raise, because getReader carries no consumed guard. -/
theorem gitStream_second_reader_drain_not_error :
    (iterateAll ⟨[[1, 2]], none, false, false⟩).fst = .ok [[1, 2]]
    ∧ (readerDrain (iterateAll ⟨[[1, 2]], none, false, false⟩).snd).fst = .ok []
    ∧ isConsumptionErr
        (readerDrain (iterateAll ⟨[[1, 2]], none, false, false⟩).snd).fst = false := by
  refine ⟨rfl, rfl, rfl⟩

/-- Claim C6 (amended): on a not-yet-consumed stream whose underlying
stream does not itself fail, the first async-iterator consumption yields
the underlying chunks until exhaustion, and any second consumption
through the guarded entry points (the async iterator, or collect which
iterates through it) raises the already-consumed error; the getReader
entry point is unguarded and a second drain through it succeeds with
end-of-stream. -/
theorem gitStream_single_owner_iteration
    (s : GitStreamSt) (maxBytes : Nat)
    (hfresh : s.consumed = false) (hok : s.failAfter = none) :
    (iterateAll s).fst = .ok s.chunks
    ∧ (iterateAll (iterateAll s).snd).fst = .error .alreadyConsumed
    ∧ (collect (iterateAll s).snd maxBytes).fst = .error .alreadyConsumed
    ∧ (readerDrain (iterateAll s).snd).fst = .ok [] := by
  have h1 : iterateAll s = (.ok s.chunks, ⟨[], none, true, true⟩) := by
    unfold iterateAll
    rw [hfresh, hok]
    rfl
  refine ⟨by rw [h1], by rw [h1]; rfl, by rw [h1]; rfl, by rw [h1]; rfl⟩

/-- Witness for the amended claim C6 at a concrete input. -/
theorem gitStream_single_owner_iteration_witness :
    (GitStreamSt.mk [[7]] none false false).consumed = false
    ∧ (GitStreamSt.mk [[7]] none false false).failAfter = none
    ∧ (iterateAll ⟨[[7]], none, false, false⟩).fst = .ok [[7]]
    ∧ (iterateAll (iterateAll ⟨[[7]], none, false, false⟩).snd).fst
        = .error .alreadyConsumed
    ∧ (collect (iterateAll ⟨[[7]], none, false, false⟩).snd 10).fst
        = .error .alreadyConsumed
    ∧ (readerDrain (iterateAll ⟨[[7]], none, false, false⟩).snd).fst = .ok [] := by
  have h := gitStream_single_owner_iteration ⟨[[7]], none, false, false⟩ 10 rfl rfl
  exact ⟨rfl, rfl, h.1, h.2.1, h.2.2.1, h.2.2.2⟩

theorem accumulateChunks_ok_le (maxBytes : Nat) :
    ∀ (cs : List (List Nat)) (total : Nat) (bs : List Nat),
      accumulateChunks maxBytes cs total = .ok bs →
      total + (cs.map List.length).sum ≤ maxBytes ∨ cs = []
  | [], _, _, _ => Or.inr rfl
  | c :: rest, total, bs, h => by
    unfold accumulateChunks at h
    by_cases hlim : total + c.length > maxBytes
    · rw [if_pos hlim] at h
      exact absurd h (by simp)
    · rw [if_neg hlim] at h
      cases hrec : accumulateChunks maxBytes rest (total + c.length) with
      | error e => rw [hrec] at h; exact absurd h (by simp)
      | ok bs' =>
        rcases accumulateChunks_ok_le maxBytes rest (total + c.length) bs' hrec with
          hle | hnil
        · left
          simpa [List.map_cons, List.sum_cons, Nat.add_assoc] using hle
        · subst hnil
          left
          simpa using Nat.le_of_not_lt hlim

theorem accumulateChunks_err_shape (maxBytes : Nat) :
    ∀ (cs : List (List Nat)) (total : Nat) (e : StreamErr),
      accumulateChunks maxBytes cs total = .error e → e = .limitHit maxBytes
  | [], _, _, h => by simp [accumulateChunks] at h
  | c :: rest, total, e, h => by
    unfold accumulateChunks at h
    by_cases hlim : total + c.length > maxBytes
    · rw [if_pos hlim] at h
      simpa using h.symm
    · rw [if_neg hlim] at h
      cases hrec : accumulateChunks maxBytes rest (total + c.length) with
      | error e' =>
        rw [hrec] at h
        have he : e = e' := by simpa using h.symm
        subst he
        exact accumulateChunks_err_shape maxBytes rest (total + c.length) e hrec
      | ok bs' => rw [hrec] at h; exact absurd h (by simp)

/-- Claim C7: on a not-yet-consumed stream, collect with a byte ceiling
smaller than the total output raises the resource-exhaustion error, and
in every outcome of collect the underlying resource ends up destroyed. -/
theorem gitStream_collect_bounded (s : GitStreamSt) (maxBytes : Nat)
    (hfresh : s.consumed = false) :
    (totalOutputBytes s > maxBytes →
      (collect s maxBytes).fst = .error (.limitHit maxBytes))
    ∧ (collect s maxBytes).snd.destroyed = true := by
  constructor
  · intro hbig
    unfold collect
    rw [hfresh]
    cases hacc : accumulateChunks maxBytes s.chunks 0 with
    | error e =>
      have := accumulateChunks_err_shape maxBytes s.chunks 0 e hacc
      subst this
      rfl
    | ok bs =>
      rcases accumulateChunks_ok_le maxBytes s.chunks 0 bs hacc with hle | hnil
      · exact absurd hbig (by simpa [totalOutputBytes] using Nat.not_lt.mpr hle)
      · exfalso
        simp [totalOutputBytes, hnil] at hbig
  · unfold collect
    rw [hfresh]
    cases hacc : accumulateChunks maxBytes s.chunks 0 with
    | error e => rfl
    | ok bs =>
      cases hfa : s.failAfter with
      | some e => rfl
      | none => rfl

/-- Witness for claim C7 at a concrete input: two chunks of total size 4
against a ceiling of 3. -/
theorem gitStream_collect_bounded_witness :
    (GitStreamSt.mk [[1, 2], [3, 4]] none false false).consumed = false
    ∧ (totalOutputBytes ⟨[[1, 2], [3, 4]], none, false, false⟩ > 3 →
        (collect ⟨[[1, 2], [3, 4]], none, false, false⟩ 3).fst
          = .error (.limitHit 3))
    ∧ (collect ⟨[[1, 2], [3, 4]], none, false, false⟩ 3).snd.destroyed = true := by
  have h := gitStream_collect_bounded ⟨[[1, 2], [3, 4]], none, false, false⟩ 3 rfl
  exact ⟨rfl, h.1, h.2⟩

/-! ### Runtime adapters: standard-input handling (claim C5)

Each adapter's run method decides what happens to the spawned child's
standard input from the optional input payload alone; the decision logic
is embedded as the list of actions performed on the stdin handle, in
order.  JavaScript truthiness makes the empty string count as absent. -/

/-- An action performed on the child's standard input. -/
inductive StdinAct
  | writeIn (payload : String)
  | closeIn
deriving DecidableEq

/-- NodeShellRunner.run (buffered path): stdin is written and ended only
inside the truthy-input branch; there is no else branch, so nothing
closes stdin when no payload is given. -/
def nodeRunStdinActs (input : Option String) : List StdinAct :=
  match input with
  | some s => if s = "" then [] else [.writeIn s, .closeIn]
  | none => []

/-- NodeShellRunner runStream: the same truthy-input-only write-and-end
block, again with no else branch. -/
def nodeRunStreamStdinActs (input : Option String) : List StdinAct :=
  match input with
  | some s => if s = "" then [] else [.writeIn s, .closeIn]
  | none => []

/-- BunShellRunner.run: write-and-end on truthy input, end immediately
otherwise. -/
def bunRunStdinActs (input : Option String) : List StdinAct :=
  match input with
  | some s => if s = "" then [.closeIn] else [.writeIn s, .closeIn]
  | none => [.closeIn]

/-- DenoShellRunner.run: write-and-close on truthy input, close
immediately otherwise (both the streaming and the buffered path). -/
def denoRunStdinActs (input : Option String) : List StdinAct :=
  match input with
  | some s => if s = "" then [.closeIn] else [.writeIn s, .closeIn]
  | none => [.closeIn]

/-- Whether the action sequence ever closes standard input. -/
def stdinClosed (acts : List StdinAct) : Bool := acts.contains .closeIn

/-- Claim C5 (failing input): with no input payload, the Node adapter
performs no stdin action at all, leaving standard input open, while the
Bun and Deno adapters close it immediately. -/
theorem nodeShellRunner_leaves_stdin_open :
    stdinClosed (nodeRunStdinActs none) = false
    ∧ stdinClosed (nodeRunStreamStdinActs none) = false
    ∧ nodeRunStdinActs none = []
    ∧ stdinClosed (bunRunStdinActs none) = true
    ∧ stdinClosed (denoRunStdinActs none) = true := by
  refine ⟨rfl, rfl, rfl, rfl, rfl⟩

/-! ### CommandRetryPolicy and ExecutionOrchestrator

(src/src/domain/value-objects/CommandRetryPolicy.js and
src/src/domain/services/ExecutionOrchestrator.js)

The orchestrator reads maxAttempts, getDelay and totalTimeout off the
policy object it is handed, so the policy record carries a totalTimeout
field; the CommandRetryPolicy constructor, however, destructures only
maxAttempts, initialDelayMs and backoffFactor from its options, so a
requested totalTimeout never reaches the constructed object (it stays
undefined, modelled as none).  Time is virtual: each execute call takes
its declared duration and each backoff wait adds its delay. -/

/-- The options object handed to the CommandRetryPolicy constructor. -/
structure RetryOptions where
  maxAttempts : Nat
  initialDelayMs : Nat
  backoffFactor : Nat
  totalTimeout : Option Nat
deriving DecidableEq

/-- A retry policy as the orchestrator consumes it. -/
structure RetryPolicyR where
  maxAttempts : Nat
  initialDelayMs : Nat
  backoffFactor : Nat
  totalTimeout : Option Nat
deriving DecidableEq

/-- The CommandRetryPolicy constructor: rejects maxAttempts below one and
assigns exactly the three destructured options; a totalTimeout passed in
the options object is discarded, so the field of the constructed policy
is always undefined. -/
def mkCommandRetryPolicy (o : RetryOptions) : Except String RetryPolicyR :=
  if o.maxAttempts < 1 then .error "maxAttempts must be at least 1"
  else .ok ⟨o.maxAttempts, o.initialDelayMs, o.backoffFactor, none⟩

/-- CommandRetryPolicy.getDelay: zero for the first attempt, otherwise
backoffFactor to the power attempt minus one, times the initial delay. -/
def getDelay (p : RetryPolicyR) (attempt : Nat) : Nat :=
  if attempt ≤ 1 then 0 else p.backoffFactor ^ (attempt - 1) * p.initialDelayMs

/-- Behaviour of one execute call: a settled result with stdout, exit
code and diagnostic text, or a raised exception (flagged by whether it is
a GitPlumbingError instance). -/
inductive ExecOut
  | val (stdout : String) (code : Nat) (stderr : String)
  | raise (msg : String) (isPlumbing : Bool)
deriving DecidableEq

/-- One attempt's behaviour: the virtual duration of the execute call and
its outcome. -/
structure AttemptBeh where
  duration : Nat
  out : ExecOut
deriving DecidableEq

/-- Errors thrown out of orchestrate. -/
inductive OrchErr
  | budget (elapsed : Nat)
  | classified (f : ClassifiedFailure)
  | rethrown (msg : String)
  | wrapped (msg : String)
deriving DecidableEq

/-- The JavaScript class of each thrown error: the budget error and the
wrapper are GitPlumbingError, a rethrown classified failure keeps its
class, and a rethrown foreign GitPlumbingError is at least of the base
class. -/
def orchErrClass : OrchErr → JsErrClass
  | .budget _ => .gitPlumbingError
  | .classified f => failureClass f
  | .rethrown _ => .gitPlumbingError
  | .wrapped _ => .gitPlumbingError

/-- How one orchestrate call settles. -/
inductive OrchOutcome
  | success (out : String)
  | failure (e : OrchErr)
  | undef
deriving DecidableEq

/-- Scheduling events of one orchestrate run, with the virtual elapsed
time at which each occurs. -/
inductive OrchEvent
  | execEv (attempt elapsedAtStart duration : Nat)
  | sleepEv (elapsedBefore delay : Nat)
deriving DecidableEq

/-- The checkTotalTimeout guard: skipped when totalTimeout is undefined
or zero (both falsy), raising when the elapsed total strictly exceeds
it. -/
def budgetHit (tt : Option Nat) (elapsed : Nat) : Bool :=
  match tt with
  | none => false
  | some t => !(t == 0) && decide (elapsed > t)

/-- The pre-backoff guard on line 65 of the orchestrator: identical
truthiness and strict comparison, applied to elapsed plus the backoff. -/
def backoffBlocked (tt : Option Nat) (elapsed backoff : Nat) : Bool :=
  budgetHit tt (elapsed + backoff)

/-- One run of the orchestrate while-loop.  The fuel argument equals
maxAttempts minus the attempts already made, so exhausting it coincides
with the loop condition turning false (upon which the JavaScript
function resolves with no value, the undef outcome).  Returns the
outcome together with the list of scheduling events. -/
def orchLoop (p : RetryPolicyR) (beh : Nat → AttemptBeh) (args : List String)
    (traceId : String) : Nat → Nat → Nat → OrchOutcome × List OrchEvent
  | 0, _, _ => (.undef, [])
  | fuel + 1, attempt, elapsed =>
    if attempt < p.maxAttempts then
      if budgetHit p.totalTimeout elapsed then (.failure (.budget elapsed), [])
      else
        let att := attempt + 1
        let b := beh att
        let elapsed2 := elapsed + b.duration
        let ev := OrchEvent.execEv att elapsed b.duration
        match b.out with
        | .raise msg isP =>
          if isP then (.failure (.rethrown msg), [ev])
          else (.failure (.wrapped msg), [ev])
        | .val stdout code stderr =>
          if budgetHit p.totalTimeout elapsed2 then
            (.failure (.budget elapsed2), [ev])
          else if code = 0 then (.success (strTrim stdout), [ev])
          else
            let err := classify [] ⟨args, stderr, stdout, code, traceId, b.duration⟩
            if isRetryable err && att < p.maxAttempts then
              let backoff := getDelay p (att + 1)
              if backoffBlocked p.totalTimeout elapsed2 backoff then
                (.failure (.classified err), [ev])
              else
                let r := orchLoop p beh args traceId fuel att (elapsed2 + backoff)
                (r.fst, ev :: .sleepEv elapsed2 backoff :: r.snd)
            else (.failure (.classified err), [ev])
    else (.undef, [])

/-- ExecutionOrchestrator.orchestrate with the default classifier. -/
def orchestrate (p : RetryPolicyR) (beh : Nat → AttemptBeh) (args : List String)
    (traceId : String) : OrchOutcome × List OrchEvent :=
  orchLoop p beh args traceId p.maxAttempts 0 0

/-- Number of execute invocations recorded in an event list. -/
def execCount (evs : List OrchEvent) : Nat :=
  evs.countP (fun ev => match ev with | .execEv _ _ _ => true | _ => false)

/-- An event respects the budget when an attempt starts only with the
elapsed total within it and a backoff wait never pushes the elapsed
total past it. -/
def eventWithinBudget (t : Nat) : OrchEvent → Bool
  | .execEv _ elapsedAtStart _ => decide (elapsedAtStart ≤ t)
  | .sleepEv elapsedBefore delay => decide (elapsedBefore + delay ≤ t)

theorem le_of_not_budgetHit {t elapsed : Nat} (ht : t ≠ 0)
    (h : budgetHit (some t) elapsed = false) : elapsed ≤ t := by
  simpa [budgetHit, ht] using h

theorem budgetHit_zero (tt : Option Nat) : budgetHit tt 0 = false := by
  cases tt with
  | none => rfl
  | some t => simp [budgetHit]

/-- Claim C2 (code evaluation): the constructor discards the requested
total budget, so with maxAttempts three, initial delay 500 and a
requested budget of 600, against an always-lock-contended execute step,
orchestrate performs three attempts (sleeping 1000 and then 2000
milliseconds) before throwing the lock failure, instead of the single
attempt the specification and the repository's own orchestrator test
expect. -/
theorem retryPolicy_totalBudget_dropped_three_attempts :
    mkCommandRetryPolicy ⟨3, 500, 2, some 600⟩ = .ok ⟨3, 500, 2, none⟩
    ∧ execCount (orchestrate ⟨3, 500, 2, none⟩
        (fun _ => ⟨0, .val "" 128 "index.lock"⟩) ["test"] "t").snd = 3
    ∧ (orchestrate ⟨3, 500, 2, none⟩
        (fun _ => ⟨0, .val "" 128 "index.lock"⟩) ["test"] "t").fst
      = .failure (.classified (.locked ⟨["test"], "index.lock", "", 128, "t", 0⟩))
    ∧ execCount (orchestrate ⟨3, 500, 2, some 600⟩
        (fun _ => ⟨0, .val "" 128 "index.lock"⟩) ["test"] "t").snd = 1 := by
  refine ⟨rfl, by decide, by decide, by decide⟩

theorem orchLoop_events_within_budget
    (p : RetryPolicyR) (beh : Nat → AttemptBeh) (args : List String)
    (traceId : String) (t : Nat) (htt : p.totalTimeout = some t) (ht : t ≠ 0) :
    ∀ (fuel attempt elapsed : Nat),
      ((orchLoop p beh args traceId fuel attempt elapsed).snd).all
        (eventWithinBudget t) = true := by
  intro fuel
  induction fuel with
  | zero => intro attempt elapsed; rfl
  | succ fuel ih =>
    intro attempt elapsed
    unfold orchLoop
    by_cases hA : attempt < p.maxAttempts
    · rw [if_pos hA]
      by_cases hb : budgetHit p.totalTimeout elapsed = true
      · rw [if_pos hb]
        rfl
      · rw [if_neg hb]
        have hb' : budgetHit p.totalTimeout elapsed = false := by
          simpa using hb
        rw [htt] at hb'
        have hpre : elapsed ≤ t := le_of_not_budgetHit ht hb'
        dsimp only
        cases hbo : (beh (attempt + 1)).out with
        | raise msg isP =>
          dsimp only
          by_cases hip : isP = true
          · rw [if_pos hip]
            simp [eventWithinBudget, hpre]
          · rw [if_neg hip]
            simp [eventWithinBudget, hpre]
        | val stdout code stderr =>
          dsimp only
          by_cases hb2 : budgetHit p.totalTimeout
              (elapsed + (beh (attempt + 1)).duration) = true
          · rw [if_pos hb2]
            simp [eventWithinBudget, hpre]
          · rw [if_neg hb2]
            by_cases hc0 : code = 0
            · rw [if_pos hc0]
              simp [eventWithinBudget, hpre]
            · rw [if_neg hc0]
              by_cases hr : (isRetryable (classify []
                    ⟨args, stderr, stdout, code, traceId,
                      (beh (attempt + 1)).duration⟩)
                  && decide (attempt + 1 < p.maxAttempts)) = true
              · rw [if_pos hr]
                by_cases hbk : backoffBlocked p.totalTimeout
                    (elapsed + (beh (attempt + 1)).duration)
                    (getDelay p (attempt + 1 + 1)) = true
                · rw [if_pos hbk]
                  simp [eventWithinBudget, hpre]
                · rw [if_neg hbk]
                  have hbk' : budgetHit (some t)
                      (elapsed + (beh (attempt + 1)).duration
                        + getDelay p (attempt + 1 + 1)) = false := by
                    have : backoffBlocked p.totalTimeout
                        (elapsed + (beh (attempt + 1)).duration)
                        (getDelay p (attempt + 1 + 1)) = false := by
                      simpa using hbk
                    rw [htt] at this
                    simpa [backoffBlocked] using this
                  have hsleep : elapsed + (beh (attempt + 1)).duration
                      + getDelay p (attempt + 1 + 1) ≤ t :=
                    le_of_not_budgetHit ht hbk'
                  have hrec := ih (attempt + 1)
                    (elapsed + (beh (attempt + 1)).duration
                      + getDelay p (attempt + 1 + 1))
                  simp [eventWithinBudget, hpre, hsleep, hrec]
              · rw [if_neg hr]
                simp [eventWithinBudget, hpre]
    · rw [if_neg hA]
      rfl

/-- Claim C3: for every orchestrate call whose retry policy carries a
total budget (a defined, non-zero totalTimeout, as zero is falsy for the
source's guards), every attempt starts only while the elapsed total is
within the budget and every backoff wait keeps the elapsed total within
the budget — the orchestrator neither starts an attempt past the budget
nor sleeps a delay that would push the elapsed time past it. -/
theorem orchestrate_respects_totalBudget
    (p : RetryPolicyR) (beh : Nat → AttemptBeh) (args : List String)
    (traceId : String) (t : Nat)
    (htt : p.totalTimeout = some t) (ht : t ≠ 0) :
    ((orchestrate p beh args traceId).snd).all (eventWithinBudget t) = true :=
  orchLoop_events_within_budget p beh args traceId t htt ht p.maxAttempts 0 0

/-- Witness for claim C3 at a concrete input: budget 1000, attempts of
duration 50 with lock contention. -/
theorem orchestrate_respects_totalBudget_witness :
    (RetryPolicyR.mk 2 100 2 (some 1000)).totalTimeout = some 1000
    ∧ ((orchestrate ⟨2, 100, 2, some 1000⟩
        (fun _ => ⟨50, .val "" 128 "index.lock"⟩) ["a"] "t").snd).all
        (eventWithinBudget 1000) = true :=
  ⟨rfl, orchestrate_respects_totalBudget ⟨2, 100, 2, some 1000⟩
    (fun _ => ⟨50, .val "" 128 "index.lock"⟩) ["a"] "t" 1000 rfl (by decide)⟩

/-- The possible settlements of one orchestrate call: a resolved value is
the trimmed stdout of some attempt that exited zero, a rejection carries
a GitPlumbingError, and resolving with no value is impossible. -/
def successShape (p : RetryPolicyR) (beh : Nat → AttemptBeh) : OrchOutcome → Prop
  | .success s => ∃ n, 1 ≤ n ∧ n ≤ p.maxAttempts ∧
      ∃ stdout stderr, (beh n).out = .val stdout 0 stderr ∧ s = strTrim stdout
  | .failure e => jsExtendsGitPlumbingError (orchErrClass e) = true
  | .undef => False

theorem orchLoop_spec
    (p : RetryPolicyR) (beh : Nat → AttemptBeh) (args : List String)
    (traceId : String) :
    ∀ (fuel attempt elapsed : Nat),
      attempt < p.maxAttempts → fuel + attempt = p.maxAttempts →
      budgetHit p.totalTimeout elapsed = false →
      1 ≤ execCount (orchLoop p beh args traceId fuel attempt elapsed).snd
      ∧ execCount (orchLoop p beh args traceId fuel attempt elapsed).snd ≤ fuel
      ∧ successShape p beh (orchLoop p beh args traceId fuel attempt elapsed).fst := by
  intro fuel
  induction fuel with
  | zero =>
    intro attempt elapsed hA hf _
    omega
  | succ fuel ih =>
    intro attempt elapsed hA hf hbz
    unfold orchLoop
    rw [if_pos hA, if_neg (by simp [hbz] : ¬ budgetHit p.totalTimeout elapsed = true)]
    dsimp only
    cases hbo : (beh (attempt + 1)).out with
    | raise msg isP =>
      dsimp only
      by_cases hip : isP = true
      · rw [if_pos hip]
        refine ⟨by simp [execCount], by simp [execCount], ?_⟩
        simp [successShape, jsExtendsGitPlumbingError]
      · rw [if_neg hip]
        refine ⟨by simp [execCount], by simp [execCount], ?_⟩
        simp [successShape, jsExtendsGitPlumbingError]
    | val stdout code stderr =>
      dsimp only
      by_cases hb2 : budgetHit p.totalTimeout
          (elapsed + (beh (attempt + 1)).duration) = true
      · rw [if_pos hb2]
        refine ⟨by simp [execCount], by simp [execCount], ?_⟩
        simp [successShape, jsExtendsGitPlumbingError]
      · rw [if_neg hb2]
        by_cases hc0 : code = 0
        · rw [if_pos hc0]
          refine ⟨by simp [execCount], by simp [execCount], ?_⟩
          refine ⟨attempt + 1, by omega, by omega, stdout, stderr, ?_, rfl⟩
          rw [hbo, hc0]
        · rw [if_neg hc0]
          by_cases hr : (isRetryable (classify []
                ⟨args, stderr, stdout, code, traceId,
                  (beh (attempt + 1)).duration⟩)
              && decide (attempt + 1 < p.maxAttempts)) = true
          · rw [if_pos hr]
            by_cases hbk : backoffBlocked p.totalTimeout
                (elapsed + (beh (attempt + 1)).duration)
                (getDelay p (attempt + 1 + 1)) = true
            · rw [if_pos hbk]
              refine ⟨by simp [execCount], by simp [execCount], ?_⟩
              simp [successShape, jsExtendsGitPlumbingError]
            · rw [if_neg hbk]
              have hA2 : attempt + 1 < p.maxAttempts := by
                have := (Bool.and_eq_true _ _).mp hr
                exact of_decide_eq_true this.2
              have hf2 : fuel + (attempt + 1) = p.maxAttempts := by omega
              have hbz2 : budgetHit p.totalTimeout
                  (elapsed + (beh (attempt + 1)).duration
                    + getDelay p (attempt + 1 + 1)) = false := by
                simpa [backoffBlocked] using hbk
              obtain ⟨h1, h2, h3⟩ := ih (attempt + 1)
                (elapsed + (beh (attempt + 1)).duration
                  + getDelay p (attempt + 1 + 1)) hA2 hf2 hbz2
              refine ⟨?_, ?_, ?_⟩
              · simp [execCount, List.countP_cons]
              · have : execCount ((OrchEvent.execEv (attempt + 1) elapsed
                    (beh (attempt + 1)).duration) ::
                    (OrchEvent.sleepEv (elapsed + (beh (attempt + 1)).duration)
                      (getDelay p (attempt + 1 + 1))) ::
                    (orchLoop p beh args traceId fuel (attempt + 1)
                      (elapsed + (beh (attempt + 1)).duration
                        + getDelay p (attempt + 1 + 1))).snd)
                    = execCount (orchLoop p beh args traceId fuel (attempt + 1)
                      (elapsed + (beh (attempt + 1)).duration
                        + getDelay p (attempt + 1 + 1))).snd + 1 := by
                  simp [execCount, List.countP_cons]
                rw [this]
                omega
              · exact h3
          · rw [if_neg hr]
            refine ⟨by simp [execCount], by simp [execCount], ?_⟩
            simp [successShape, jsExtendsGitPlumbingError]

/-- Claim C10: with any policy whose maxAttempts is at least one (as the
constructor enforces) and any terminating execute step, orchestrate never
resolves with no value, invokes execute between one and maxAttempts
times, and settles either with the trimmed stdout of a zero-exit attempt
or by throwing a GitPlumbingError. -/
theorem orchestrate_terminates_bounded
    (p : RetryPolicyR) (beh : Nat → AttemptBeh) (args : List String)
    (traceId : String) (h : 1 ≤ p.maxAttempts) :
    (orchestrate p beh args traceId).fst ≠ .undef
    ∧ 1 ≤ execCount (orchestrate p beh args traceId).snd
    ∧ execCount (orchestrate p beh args traceId).snd ≤ p.maxAttempts
    ∧ successShape p beh (orchestrate p beh args traceId).fst := by
  obtain ⟨h1, h2, h3⟩ := orchLoop_spec p beh args traceId p.maxAttempts 0 0
    (by omega) (by omega) (budgetHit_zero _)
  refine ⟨?_, h1, h2, h3⟩
  intro hu
  rw [orchestrate] at hu
  rw [hu] at h3
  exact h3

/-- Witness for claim C10 at a concrete input: a single-attempt policy
with a zero-exit execute step. -/
theorem orchestrate_terminates_bounded_witness :
    1 ≤ (RetryPolicyR.mk 1 100 2 none).maxAttempts
    ∧ ((orchestrate ⟨1, 100, 2, none⟩ (fun _ => ⟨0, .val " ok " 0 ""⟩)
        ["rev-parse"] "t").fst ≠ .undef
      ∧ 1 ≤ execCount (orchestrate ⟨1, 100, 2, none⟩
          (fun _ => ⟨0, .val " ok " 0 ""⟩) ["rev-parse"] "t").snd
      ∧ execCount (orchestrate ⟨1, 100, 2, none⟩
          (fun _ => ⟨0, .val " ok " 0 ""⟩) ["rev-parse"] "t").snd
        ≤ (RetryPolicyR.mk 1 100 2 none).maxAttempts
      ∧ successShape ⟨1, 100, 2, none⟩ (fun _ => ⟨0, .val " ok " 0 ""⟩)
          (orchestrate ⟨1, 100, 2, none⟩ (fun _ => ⟨0, .val " ok " 0 ""⟩)
            ["rev-parse"] "t").fst) :=
  ⟨by decide, orchestrate_terminates_bounded ⟨1, 100, 2, none⟩
    (fun _ => ⟨0, .val " ok " 0 ""⟩) ["rev-parse"] "t" (by decide)⟩

end Plumbing
